import Mathlib

/-!
Verification of the msgraph-mta program (`src/msgraph_mta/msgmta.py`):
a shallow embedding of its message-to-payload pipeline (parsing,
recipient formatting, payload construction, delivery, orchestration)
and proofs of the specified properties.
-/

namespace MsgMta

/-! ## Python string helpers -/

/-- The whitespace characters stripped by Python's `str.strip()`
(restricted to the ASCII range, which covers the addresses at hand). -/
def pyWS (c : Char) : Bool :=
  c = ' ' || c = '\t' || c = '\n' || c = '\x0d' || c = '\x0b' || c = '\x0c'

/-- Python `str.strip()`: remove leading and trailing whitespace. -/
def pyStrip (s : String) : String :=
  String.mk (((s.data.dropWhile pyWS).reverse.dropWhile pyWS).reverse)

/-- ASCII-lowercase a string (header-name comparison in the `email`
library is case-insensitive). -/
def lowerStr (s : String) : String :=
  String.mk (s.data.map Char.toLower)

/-- Python truthiness-based `or` on strings: `a or b`. -/
def pyOrStr (a b : String) : String :=
  if a = "" then b else a

/-- Python truthiness-based `or` of a list against a default: `l or d`. -/
def pyOrList {α : Type} (l d : List α) : List α :=
  match l with
  | [] => d
  | _ => l

/-! ## Data model -/

/-- The MSGraph recipient record `{"emailAddress": {"address": addr}}`. -/
structure Recipient where
  address : String
  deriving DecidableEq, Repr

/-- `fmt_recipients`: convert a list of recipient emails into the list of
records required for MSGraph, stripping each address. -/
def fmt_recipients (recipients : List String) : List Recipient :=
  recipients.map (fun addr => ⟨pyStrip addr⟩)

/-- A byte sequence (the undecoded payload of a MIME part). -/
abbrev ByteSeq : Type := List Nat

/-- One node of the parsed MIME tree.  A `leaf` is a non-multipart part
carrying its content type, optional declared charset and raw payload; a
`multi` node is a `multipart/<subtype>` container (the `email` parser
only builds list payloads for multipart content types). -/
inductive Part where
  | leaf (ctype : String) (charset : Option String) (payload : ByteSeq)
  | multi (subtype : String) (parts : List Part)
  deriving Repr

/-- `get_content_type()` of a part. -/
def Part.contentType : Part → String
  | .leaf ct _ _ => ct
  | .multi sub _ => "multipart/" ++ sub

mutual

/-- `msg.walk()`: depth-first traversal that yields the part itself
first, then recursively each subpart. -/
def Part.walk : Part → List Part
  | .leaf ct cs pl => [.leaf ct cs pl]
  | .multi sub ps => .multi sub ps :: Part.walkAll ps

/-- Depth-first traversal of a list of sibling parts, in order. -/
def Part.walkAll : List Part → List Part
  | [] => []
  | p :: ps => Part.walk p ++ Part.walkAll ps

end

/-- A parsed email message: ordered header lines (name, value) plus the
MIME body structure. -/
structure EmailMessage where
  headers : List (String × String)
  body : Part

/-- `msg.get_all(name, [])`: all values of headers whose name matches
case-insensitively, in encounter order. -/
def getAll (headers : List (String × String)) (name : String) : List String :=
  (headers.filter (fun h => lowerStr h.1 = lowerStr name)).map Prod.snd

/-- `msg.get(name, default)`: the first matching header value, or the
default. -/
def getFirst (headers : List (String × String)) (name : String)
    (dflt : String) : String :=
  match headers.find? (fun h => lowerStr h.1 = lowerStr name) with
  | some h => h.2
  | none => dflt

/-- The structured envelope built by `parse_email_message`. -/
structure ParsedMsg where
  «to» : List Recipient
  cc : List Recipient
  bcc : List Recipient
  subject : String
  content_type : String
  content : String
  deriving DecidableEq, Repr

/-- A charset-aware payload decoder (`bytes.decode(charset)`): the
embedding keeps it abstract since the pipeline only selects which part
and charset to decode.  This is the infallible restriction, adequate
wherever the decoded text is merely carried along; `FallibleDecoder`
below also models `bytes.decode` raising. -/
def Decoder : Type := String → ByteSeq → String

/-- `part.get_content_charset("utf-8")`. -/
def charsetOrDefault (cs : Option String) : String :=
  cs.getD "utf-8"

/-- The body of the `for part in msg.walk(): if ... break` loop: the
first walked part that is exactly `text/plain`, if any. -/
def firstTextPlain : List Part → Option Part
  | [] => none
  | p :: ps => if p.contentType = "text/plain" then some p else firstTextPlain ps

/-- Decode a leaf part with its declared charset (UTF-8 when absent);
container parts carry no decodable payload. -/
def decodePart (decode : Decoder) : Part → String
  | .leaf _ cs pl => decode (charsetOrDefault cs) pl
  | .multi _ _ => ""

/-- The body-extraction step of `parse_email_message`: if the message
`is_multipart()`, scan `msg.walk()` and decode the first `text/plain`
part (empty content when none exists); otherwise decode the single
payload under the same charset rule. -/
def extract_content (decode : Decoder) : Part → String
  | .multi sub ps =>
      match firstTextPlain (Part.walk (.multi sub ps)) with
      | some p => decodePart decode p
      | none => ""
  | .leaf ct cs pl => decodePart decode (.leaf ct cs pl)

/-- `parse_email_message`: extract headers, reject any Bcc, and extract
the first plain-text body.  The `assert not bcc_addrs` is modelled as an
`Except.error`. -/
def parse_email_message (decode : Decoder) (msg : EmailMessage) :
    Except String ParsedMsg :=
  let to_addrs := getAll msg.headers "To"
  let cc_addrs := getAll msg.headers "Cc"
  let bcc_addrs := getAll msg.headers "Bcc"
  if bcc_addrs ≠ [] then
    .error "must implement bcc handling"
  else
    .ok
      { «to» := fmt_recipients to_addrs
        cc := fmt_recipients cc_addrs
        bcc := fmt_recipients bcc_addrs
        subject := getFirst msg.headers "Subject" ""
        content_type := "text/plain"
        content := extract_content decode msg.body }

/-- A fallible payload decoder: `bytes.decode(charset)` as it behaves
in the source, where an unknown charset raises `LookupError` and
undecodable bytes raise `UnicodeDecodeError`; a raise is modelled as
`Except.error` with the exception's message. -/
def FallibleDecoder : Type := String → ByteSeq → Except String String

/-- Lift an infallible decoder to a fallible one that never fails. -/
def liftDecoder (decode : Decoder) : FallibleDecoder :=
  fun cs pl => .ok (decode cs pl)

/-- `decodePart` under a fallible decoder. -/
def decodePartF (decode : FallibleDecoder) : Part → Except String String
  | .leaf _ cs pl => decode (charsetOrDefault cs) pl
  | .multi _ _ => .ok ""

/-- `extract_content` under a fallible decoder: a decode failure of the
selected part propagates, as the uncaught exception does in the
source. -/
def extract_contentF (decode : FallibleDecoder) : Part → Except String String
  | .multi sub ps =>
      match firstTextPlain (Part.walk (.multi sub ps)) with
      | some p => decodePartF decode p
      | none => .ok ""
  | .leaf ct cs pl => decodePartF decode (.leaf ct cs pl)

/-- `parse_email_message` under a fallible decoder.  The source runs
`assert not bcc_addrs` before any body decoding, so the Bcc rejection
fires first; afterwards a body-decoding failure also aborts parsing. -/
def parse_email_messageF (decode : FallibleDecoder) (msg : EmailMessage) :
    Except String ParsedMsg :=
  let to_addrs := getAll msg.headers "To"
  let cc_addrs := getAll msg.headers "Cc"
  let bcc_addrs := getAll msg.headers "Bcc"
  if bcc_addrs ≠ [] then
    .error "must implement bcc handling"
  else
    match extract_contentF decode msg.body with
    | .error e => .error e
    | .ok content =>
      .ok
        { «to» := fmt_recipients to_addrs
          cc := fmt_recipients cc_addrs
          bcc := fmt_recipients bcc_addrs
          subject := getFirst msg.headers "Subject" ""
          content_type := "text/plain"
          content := content }

/-! ## Delivery client (`send_mail`) -/

/-- A JSON value, for the outbound request body. -/
inductive Json where
  | str (s : String)
  | bool (b : Bool)
  | obj (fields : List (String × Json))
  | arr (elems : List Json)

/-- Look up a field of a JSON object. -/
def Json.lookup : Json → String → Option Json
  | .obj fields, key =>
      match fields.find? (fun f => f.1 = key) with
      | some f => some f.2
      | none => none
  | _, _ => none

/-- The MSGraph representation of one recipient. -/
def Recipient.toJson (r : Recipient) : Json :=
  .obj [("emailAddress", .obj [("address", .str r.address)])]

/-- The request body built by `send_mail`.  Note the source writes the
Python string `"true"` (not the boolean `True`) for `saveToSentItems`. -/
def send_mail_body (sender : String) (parsed : ParsedMsg) : Json :=
  .obj
    [("message", .obj
      [("subject", .str parsed.subject),
       ("body", .obj
         [("contentType", .str "Text"),
          ("content", .str parsed.content)]),
       ("toRecipients", .arr (parsed.to.map Recipient.toJson)),
       ("ccRecipients", .arr (parsed.cc.map Recipient.toJson)),
       ("from", .obj
         [("emailAddress", .obj [("address", .str sender)])])]),
     ("saveToSentItems", .str "true")]

/-- The final HTTP response to the POST, as the `requests` library
reports it: a numeric status code and the raw response text. -/
structure HttpResponse where
  status : Nat
  text : String
  deriving DecidableEq, Repr

/-- `requests.Response.ok`: true unless `raise_for_status` would raise,
i.e. unless the status is a 4xx client error or 5xx server error. -/
def Response.ok (r : HttpResponse) : Bool :=
  !((400 ≤ r.status && r.status < 500) || (500 ≤ r.status && r.status < 600))

/-- The error raised on a non-ok response, carrying the upstream status
and raw body (`DeliveryError` in the specification's taxonomy). -/
structure DeliveryError where
  status : Nat
  text : String
  deriving DecidableEq, Repr

/-- `send_mail`: build the body, issue one POST, succeed if the response
is ok and raise otherwise.  The single HTTP exchange is modelled by its
response; the function performs exactly one request and never retries. -/
def send_mail (sender : String) (parsed : ParsedMsg)
    (response : HttpResponse) : Except DeliveryError Json :=
  let data := send_mail_body sender parsed
  if Response.ok response then
    .ok data
  else
    .error ⟨response.status, response.text⟩

/-! ## Orchestrator (`main`) -/

/-- A network call observable in a run of `main`. -/
inductive Event where
  | authCall
  | sendCall
  deriving DecidableEq, Repr

/-- The terminal state of one invocation. -/
inductive Outcome where
  | authFailure
  | parseFailure
  | noRecipients
  | deliveryFailure (status : Nat) (text : String)
  | delivered
  deriving DecidableEq, Repr

/-- The process exit status for each outcome: `sys.exit(1)` for the
missing-recipients path, interpreter exit 1 for an uncaught exception,
0 on success. -/
def exitCode : Outcome → Nat
  | .delivered => 0
  | _ => 1

/-- The CLI options consumed by `main` (`--subject` default
`"no subject"`, positional extra recipients). -/
structure Options where
  subject : String
  recipients : List String

/-- The environment of one invocation: whether the token request
yields an `access_token`, and the HTTP response to the send call. -/
structure World where
  authOk : Bool
  response : HttpResponse

/-- The subject merge in `main`:
`parsed['subject'] = parsed['subject'] or options.subject`. -/
def merge_subject (parsedSubject cliSubject : String) : String :=
  pyOrStr parsedSubject cliSubject

/-- The recipient merge in `main`: `parsed['to'] = parsed['to'] or []`
followed by `parsed['to'].extend(fmt_recipients(options.recipients))`. -/
def merge_to (parsedTo : List Recipient) (cliRecipients : List String) :
    List Recipient :=
  pyOrList parsedTo [] ++ fmt_recipients cliRecipients

/-- `main`: the orchestration sequence of the source — load config,
acquire a token, parse the message, merge CLI options, check for
recipients, deliver — returning the network calls issued, in order,
and the terminal outcome. -/
def main (decode : Decoder) (w : World) (sender : String)
    (msg : EmailMessage) (options : Options) : List Event × Outcome :=
  let events := [Event.authCall]
  if !w.authOk then
    (events, .authFailure)
  else
    match parse_email_message decode msg with
    | .error _ => (events, .parseFailure)
    | .ok parsed =>
      let parsed :=
        { parsed with
            «to» := merge_to parsed.to options.recipients
            subject := merge_subject parsed.subject options.subject }
      if parsed.to = [] then
        (events, .noRecipients)
      else
        let events := events ++ [Event.sendCall]
        match send_mail sender parsed w.response with
        | .ok _ => (events, .delivered)
        | .error e => (events, .deliveryFailure e.status e.text)

/-! ## Helper lemmas -/

lemma pyOrList_nil {α : Type} (l : List α) : pyOrList l [] = l := by
  cases l <;> rfl

lemma parsed_bcc_of_no_bcc (decode : Decoder) (msg : EmailMessage)
    (hbcc : getAll msg.headers "Bcc" = []) :
    parse_email_message decode msg = .ok
      { «to» := fmt_recipients (getAll msg.headers "To")
        cc := fmt_recipients (getAll msg.headers "Cc")
        bcc := []
        subject := getFirst msg.headers "Subject" ""
        content_type := "text/plain"
        content := extract_content decode msg.body } := by
  unfold parse_email_message
  simp [hbcc, fmt_recipients]

lemma parsed_error_of_bcc (decode : Decoder) (msg : EmailMessage)
    (hbcc : getAll msg.headers "Bcc" ≠ []) :
    parse_email_message decode msg = .error "must implement bcc handling" := by
  unfold parse_email_message
  simp [hbcc]

lemma extract_contentF_lift (decode : Decoder) (p : Part) :
    extract_contentF (liftDecoder decode) p = .ok (extract_content decode p) := by
  cases p with
  | leaf ct cs pl => rfl
  | multi sub ps =>
    simp only [extract_contentF, extract_content]
    cases firstTextPlain (Part.walk (.multi sub ps)) with
    | none => rfl
    | some q => cases q <;> rfl

lemma parse_email_messageF_lift (decode : Decoder) (msg : EmailMessage) :
    parse_email_messageF (liftDecoder decode) msg = parse_email_message decode msg := by
  unfold parse_email_messageF parse_email_message
  by_cases hbcc : getAll msg.headers "Bcc" = []
  · simp [hbcc, extract_contentF_lift]
  · simp [hbcc]

lemma head?_dropWhile_false {p : Char → Bool} {l : List Char} {c : Char}
    (h : (l.dropWhile p).head? = some c) : p c = false := by
  induction l with
  | nil => simp [List.dropWhile] at h
  | cons x xs ih =>
    rw [List.dropWhile_cons] at h
    by_cases hp : p x
    · simp [hp] at h
      exact ih h
    · simp [hp] at h
      subst h
      simpa using hp

lemma dropWhile_eq_strip_append (m : List Char) :
    m = (m.reverse.dropWhile pyWS).reverse ++ (m.reverse.takeWhile pyWS).reverse := by
  have h2 : m.reverse.takeWhile pyWS ++ m.reverse.dropWhile pyWS = m.reverse :=
    List.takeWhile_append_dropWhile pyWS m.reverse
  conv_lhs => rw [← List.reverse_reverse m, ← h2]
  rw [List.reverse_append]

lemma pyStrip_decomp (s : String) :
    ∃ pre suf, s.data = pre ++ (pyStrip s).data ++ suf ∧
      (∀ c ∈ pre, pyWS c = true) ∧ (∀ c ∈ suf, pyWS c = true) ∧
      (∀ c, (pyStrip s).data.head? = some c → pyWS c = false) ∧
      (∀ c, (pyStrip s).data.getLast? = some c → pyWS c = false) := by
  have hdata : (pyStrip s).data =
      ((s.data.dropWhile pyWS).reverse.dropWhile pyWS).reverse := rfl
  refine ⟨s.data.takeWhile pyWS,
    ((s.data.dropWhile pyWS).reverse.takeWhile pyWS).reverse, ?_, ?_, ?_, ?_, ?_⟩
  · have h1 : s.data.takeWhile pyWS ++ s.data.dropWhile pyWS = s.data :=
      List.takeWhile_append_dropWhile pyWS s.data
    rw [hdata]
    conv_lhs => rw [← h1, dropWhile_eq_strip_append (s.data.dropWhile pyWS)]
    rw [List.append_assoc]
  · intro c hc
    exact List.mem_takeWhile_imp hc
  · intro c hc
    exact List.mem_takeWhile_imp (List.mem_reverse.mp hc)
  · intro c hc
    rw [hdata] at hc
    have hmh : (s.data.dropWhile pyWS).head? = some c := by
      rw [dropWhile_eq_strip_append (s.data.dropWhile pyWS)]
      cases hrc : ((s.data.dropWhile pyWS).reverse.dropWhile pyWS).reverse with
      | nil => rw [hrc] at hc; simp at hc
      | cons a as =>
        rw [hrc] at hc
        simp only [List.head?_cons, Option.some.injEq] at hc
        simp [hc]
    exact head?_dropWhile_false hmh
  · intro c hc
    rw [hdata, List.getLast?_reverse] at hc
    exact head?_dropWhile_false hc

lemma firstTextPlain_cons_plain {p : Part} (h : p.contentType = "text/plain")
    (rest : List Part) : firstTextPlain (p :: rest) = some p := by
  simp [firstTextPlain, h]

lemma firstTextPlain_append_none {l1 : List Part}
    (h : ∀ q ∈ l1, q.contentType ≠ "text/plain") (rest : List Part) :
    firstTextPlain (l1 ++ rest) = firstTextPlain rest := by
  induction l1 with
  | nil => rfl
  | cons p ps ih =>
    have hp : p.contentType ≠ "text/plain" := h p (by simp)
    simp only [List.cons_append, firstTextPlain, if_neg hp]
    exact ih (fun q hq => h q (by simp [hq]))

lemma firstTextPlain_none {l : List Part}
    (h : ∀ q ∈ l, q.contentType ≠ "text/plain") : firstTextPlain l = none := by
  induction l with
  | nil => rfl
  | cons p ps ih =>
    have hp : p.contentType ≠ "text/plain" := h p (by simp)
    simp only [firstTextPlain, if_neg hp]
    exact ih (fun q hq => h q (by simp [hq]))

lemma merge_to_eq_append (parsedTo : List Recipient) (cli : List String) :
    merge_to parsedTo cli = parsedTo ++ fmt_recipients cli := by
  unfold merge_to
  rw [pyOrList_nil]

lemma fmt_recipients_eq_nil {l : List String} :
    fmt_recipients l = [] ↔ l = [] := by
  simp [fmt_recipients]

/-! ## Concrete instances used by witnesses and counterexamples -/

/-- A concrete payload decoder: bytes as character codes, prefixed with
the charset it was asked to use (so theorems can observe which charset
was selected). -/
def taggedDecode : Decoder := fun cs pl => cs ++ ":" ++ String.mk (pl.map Char.ofNat)

/-- A message carrying a Bcc header. -/
def msgWithBcc : EmailMessage :=
  { headers := [("To", "a@x.com"), ("Bcc", "secret@x.com")]
    body := .leaf "text/plain" none [72] }

/-- A message addressed only via Cc. -/
def msgCcOnly : EmailMessage :=
  { headers := [("Cc", "c@x.com")], body := .leaf "text/plain" none [72] }

/-- A message with no recipient headers at all. -/
def msgNoRecip : EmailMessage :=
  { headers := [("Subject", "Hi")], body := .leaf "text/plain" none [72] }

/-- A message whose Bcc header has an empty value. -/
def msgEmptyBcc : EmailMessage :=
  { headers := [("Bcc", "")], body := .leaf "text/plain" none [] }

/-- A multipart message whose first `text/plain` part declares a
charset and is preceded by a non-plain part. -/
def msgMulti : EmailMessage :=
  { headers := [("To", "a@x.com")]
    body := .multi "alternative"
      [.leaf "text/html" none [60], .leaf "text/plain" (some "latin-1") [72, 105]] }

/-- A fallible decoder that fails like `bytes.decode` on an unknown
charset (`LookupError: unknown encoding`). -/
def bogusCharsetDecode : FallibleDecoder :=
  fun cs _ => .error ("unknown encoding: " ++ cs)

/-- A Bcc-free message whose plain-text body declares an unknown
charset. -/
def msgBogusCharset : EmailMessage :=
  { headers := [("To", "a@x.com")]
    body := .leaf "text/plain" (some "bogus-xyz") [72] }

/-- An environment where the token request succeeds and the send call
is answered `202 Accepted`. -/
def okWorld : World := { authOk := true, response := ⟨202, "Accepted"⟩ }

/-- A sample merged envelope handed to `send_mail`. -/
def sampleParsed : ParsedMsg :=
  { «to» := [⟨"a@x.com"⟩], cc := [], bcc := []
    subject := "Hi", content_type := "text/plain", content := "Hello" }

/-! ## Claim theorems -/

/-- C6: for every parsed envelope and CLI subject default, the merged
subject equals the parsed subject whenever the parsed subject is
non-empty, and equals the CLI-default subject whenever the parsed
subject is empty. -/
theorem merged_subject_spec (parsedSubject cliSubject : String) :
    (parsedSubject ≠ "" → merge_subject parsedSubject cliSubject = parsedSubject) ∧
    (parsedSubject = "" → merge_subject parsedSubject cliSubject = cliSubject) := by
  unfold merge_subject pyOrStr
  constructor <;> intro h <;> simp [h]

/-- C6 witness: at the concrete subjects "Hi" and "". -/
theorem merged_subject_spec_witness :
    merge_subject "Hi" "no subject" = "Hi" ∧
    merge_subject "" "no subject" = "no subject" :=
  ⟨(merged_subject_spec "Hi" "no subject").1 (by decide),
   (merged_subject_spec "" "no subject").2 rfl⟩

/-- C7: the merged to-list is always the parsed recipients followed by
the formatted CLI recipients, in that order; in particular parsed
`[x]` with CLI `[y]` merges to `[x, y]`. -/
theorem merged_to_appends (parsedTo : List Recipient) (cli : List String) :
    merge_to parsedTo cli = parsedTo ++ fmt_recipients cli ∧
    merge_to [⟨"x@x.com"⟩] ["y@y.com"] = [⟨"x@x.com"⟩, ⟨"y@y.com"⟩] := by
  constructor
  · unfold merge_to
    rw [pyOrList_nil]
  · rfl

/-- C8: the Recipient Formatter yields one record per input in order
(no deduplication), each address is its input with exactly the leading
and trailing whitespace removed, the empty list maps to the empty list,
and `format(["  a@b.com "])` is `[{"emailAddress": {"address":
"a@b.com"}}]`. -/
theorem fmt_recipients_spec (rs : List String) :
    (fmt_recipients rs).length = rs.length ∧
    (∀ i, (fmt_recipients rs).get? i =
      (rs.get? i).map (fun a => (⟨pyStrip a⟩ : Recipient))) ∧
    fmt_recipients ([] : List String) = [] ∧
    fmt_recipients ["  a@b.com "] = [⟨"a@b.com"⟩] ∧
    (∀ a : String, ∃ pre suf, a.data = pre ++ (pyStrip a).data ++ suf ∧
      (∀ c ∈ pre, pyWS c = true) ∧ (∀ c ∈ suf, pyWS c = true) ∧
      (∀ c, (pyStrip a).data.head? = some c → pyWS c = false) ∧
      (∀ c, (pyStrip a).data.getLast? = some c → pyWS c = false)) := by
  refine ⟨?_, ?_, rfl, by decide, fun a => pyStrip_decomp a⟩
  · simp [fmt_recipients]
  · intro i
    simp [fmt_recipients]

/-- C8 witness: the formatter evaluated on the concrete singleton. -/
theorem fmt_recipients_spec_witness :
    fmt_recipients ["  a@b.com "] = [⟨"a@b.com"⟩] :=
  (fmt_recipients_spec ["  a@b.com "]).2.2.2.1

/-- C3 counterexample: a `304 Not Modified` final response is outside
the 2xx class, yet `send_mail` succeeds on it, because `response.ok`
accepts every status outside 4xx/5xx. -/
theorem send_mail_not_2xx_counterexample :
    send_mail "s@x.com" sampleParsed ⟨304, "Not Modified"⟩ =
      .ok (send_mail_body "s@x.com" sampleParsed) ∧
    ¬(200 ≤ 304 ∧ 304 < 300) :=
  ⟨rfl, by decide⟩

/-- C3 (amended): the send succeeds exactly when the final response
status is outside the 4xx/5xx error classes (`requests`' `ok`, not the
2xx class alone); any 4xx/5xx response raises an error carrying the
status and the raw response text; and an invocation issues at most one
send call (no retry). -/
theorem send_mail_success_spec (sender : String) (parsed : ParsedMsg)
    (response : HttpResponse) :
    ((400 ≤ response.status ∧ response.status < 600) →
      send_mail sender parsed response =
        .error ⟨response.status, response.text⟩) ∧
    (¬(400 ≤ response.status ∧ response.status < 600) →
      send_mail sender parsed response = .ok (send_mail_body sender parsed)) ∧
    (∀ (decode : Decoder) (w : World) (msg : EmailMessage) (options : Options),
      (main decode w sender msg options).1.count Event.sendCall ≤ 1) := by
  refine ⟨?_, ?_, ?_⟩
  · intro h
    unfold send_mail Response.ok
    have : (400 ≤ response.status ∧ response.status < 500) ∨
        (500 ≤ response.status ∧ response.status < 600) := by omega
    rcases this with h5 | h5 <;>
      simp [decide_eq_true_eq, h5.1, h5.2, Nat.not_lt.mpr, Nat.le_of_lt]
  · intro h
    unfold send_mail Response.ok
    have h4 : ¬(400 ≤ response.status ∧ response.status < 500) := by omega
    have h5 : ¬(500 ≤ response.status ∧ response.status < 600) := by omega
    simp only [Bool.not_eq_true']
    split
    · rfl
    · rename_i hcond
      simp at hcond
      omega
  · intro decode w msg options
    unfold main
    dsimp only
    split
    · simp
    · split
      · simp
      · split
        · simp
        · split <;> simp

/-- C3 witness: a 500 response raises with its status and body, a 202
response succeeds. -/
theorem send_mail_success_spec_witness :
    send_mail "s@x.com" sampleParsed ⟨500, "boom"⟩ =
      .error ⟨500, "boom"⟩ ∧
    send_mail "s@x.com" sampleParsed ⟨202, "Accepted"⟩ =
      .ok (send_mail_body "s@x.com" sampleParsed) :=
  ⟨(send_mail_success_spec "s@x.com" sampleParsed ⟨500, "boom"⟩).1 (by decide),
   (send_mail_success_spec "s@x.com" sampleParsed ⟨202, "Accepted"⟩).2.1 (by decide)⟩

/-- C4 counterexample: the outbound body's `saveToSentItems` field is
the JSON string `"true"`, not the JSON boolean `true`. -/
theorem save_to_sent_items_counterexample :
    (send_mail_body "s@x.com" sampleParsed).lookup "saveToSentItems" =
      some (Json.str "true") ∧
    Json.str "true" ≠ Json.bool true := by
  refine ⟨rfl, ?_⟩
  intro h
  cases h

/-- C4 (amended): the outbound request body carries the specified
message object (subject, Text-typed body content, toRecipients,
ccRecipients, the sender under "from"), and a top-level
`saveToSentItems` field whose value is the JSON string `"true"` (the
source writes the Python string, not the boolean). -/
theorem send_mail_body_schema (sender : String) (parsed : ParsedMsg) :
    ∃ msgObj,
      (send_mail_body sender parsed).lookup "message" = some msgObj ∧
      msgObj.lookup "subject" = some (.str parsed.subject) ∧
      msgObj.lookup "body" =
        some (.obj [("contentType", .str "Text"), ("content", .str parsed.content)]) ∧
      msgObj.lookup "toRecipients" = some (.arr (parsed.to.map Recipient.toJson)) ∧
      msgObj.lookup "ccRecipients" = some (.arr (parsed.cc.map Recipient.toJson)) ∧
      msgObj.lookup "from" =
        some (.obj [("emailAddress", .obj [("address", .str sender)])]) ∧
      (send_mail_body sender parsed).lookup "saveToSentItems" =
        some (.str "true") :=
  ⟨_, rfl, rfl, rfl, rfl, rfl, rfl, rfl⟩

/-- C10 counterexample: a Bcc-free message on which parsing raises
anyway — the body's declared charset is unknown, so `bytes.decode`
fails — refuting "raises an error exactly when the raw message contains
at least one Bcc header line". -/
theorem bcc_free_parse_error_counterexample :
    getAll msgBogusCharset.headers "Bcc" = [] ∧
    parse_email_messageF bogusCharsetDecode msgBogusCharset =
      .error ("unknown encoding: " ++ "bogus-xyz") := by
  constructor
  · decide
  · rfl

/-- C10 (amended): parsing raises on every message with a Bcc header
line, an empty-valued Bcc header included; on a Bcc-free message it
raises exactly when decoding the selected body part fails; and every
envelope parsing returns comes from a Bcc-free message and has an empty
bcc list. -/
theorem parseF_error_conditions (decode : FallibleDecoder) (msg : EmailMessage) :
    (getAll msg.headers "Bcc" ≠ [] →
      parse_email_messageF decode msg = .error "must implement bcc handling") ∧
    (getAll msg.headers "Bcc" = [] →
      ((∃ e, parse_email_messageF decode msg = .error e) ↔
        (∃ e, extract_contentF decode msg.body = .error e))) ∧
    (∀ env, parse_email_messageF decode msg = .ok env →
      getAll msg.headers "Bcc" = [] ∧ env.bcc = []) := by
  refine ⟨?_, ?_, ?_⟩
  · intro hbcc
    unfold parse_email_messageF
    simp [hbcc]
  · intro hbcc
    unfold parse_email_messageF
    simp only [hbcc, ne_eq, not_true_eq_false, if_false]
    cases hx : extract_contentF decode msg.body with
    | error e =>
      exact ⟨fun _ => ⟨e, rfl⟩, fun _ => ⟨e, rfl⟩⟩
    | ok content =>
      constructor
      · rintro ⟨e, he⟩
        cases he
      · rintro ⟨e, he⟩
        cases he
  · intro env henv
    by_cases hbcc : getAll msg.headers "Bcc" = []
    · refine ⟨hbcc, ?_⟩
      unfold parse_email_messageF at henv
      simp only [hbcc, ne_eq, not_true_eq_false, if_false] at henv
      cases hx : extract_contentF decode msg.body with
      | error e =>
        rw [hx] at henv
        cases henv
      | ok content =>
        rw [hx] at henv
        cases henv
        rfl
    · unfold parse_email_messageF at henv
      simp [hbcc] at henv

/-- C10 witness: an empty-valued Bcc header is rejected, and a Bcc-free
message with a decodable body parses to an envelope with an empty bcc
list. -/
theorem parseF_error_conditions_witness :
    parse_email_messageF (liftDecoder taggedDecode) msgEmptyBcc =
      .error "must implement bcc handling" ∧
    (getAll msgCcOnly.headers "Bcc" = [] ∧
      ({ «to» := [], cc := [⟨"c@x.com"⟩], bcc := [], subject := ""
         content_type := "text/plain", content := "utf-8:H" } : ParsedMsg).bcc = []) :=
  ⟨(parseF_error_conditions (liftDecoder taggedDecode) msgEmptyBcc).1 (by decide),
   (parseF_error_conditions (liftDecoder taggedDecode) msgCcOnly).2.2 _ (by rfl)⟩

/-- C9: for a Bcc-free message, parsing succeeds and the envelope's
content is: for a multipart message, the decoded text of the first
`text/plain` part in depth-first walk order under its declared charset
(UTF-8 when unspecified), or empty text when no such part exists; for a
non-multipart message, the single payload decoded under the same
charset rule. -/
theorem extract_content_spec (decode : Decoder) (msg : EmailMessage)
    (hbcc : getAll msg.headers "Bcc" = []) :
    ∃ env, parse_email_message decode msg = .ok env ∧
      (∀ sub ps, msg.body = .multi sub ps →
        (∀ l1 ct cs pl l2,
          Part.walk msg.body = l1 ++ Part.leaf ct cs pl :: l2 →
          (∀ q ∈ l1, q.contentType ≠ "text/plain") →
          ct = "text/plain" →
          env.content = decode (cs.getD "utf-8") pl) ∧
        ((∀ q ∈ Part.walk msg.body, q.contentType ≠ "text/plain") →
          env.content = "")) ∧
      (∀ ct cs pl, msg.body = .leaf ct cs pl →
        env.content = decode (cs.getD "utf-8") pl) := by
  refine ⟨_, parsed_bcc_of_no_bcc decode msg hbcc, ?_, ?_⟩
  · intro sub ps hbody
    constructor
    · intro l1 ct cs pl l2 hwalk hl1 hct
      show extract_content decode msg.body = _
      rw [hbody] at hwalk ⊢
      simp only [extract_content]
      rw [hwalk, firstTextPlain_append_none hl1,
        firstTextPlain_cons_plain (p := Part.leaf ct cs pl) hct]
      rfl
    · intro hnone
      show extract_content decode msg.body = ""
      rw [hbody] at hnone ⊢
      simp only [extract_content]
      rw [firstTextPlain_none hnone]
  · intro ct cs pl hbody
    show extract_content decode msg.body = _
    rw [hbody]
    rfl

/-- C9 witness: on a concrete three-part message the extracted content
is the second leaf's payload decoded with its declared latin-1
charset. -/
theorem extract_content_spec_witness :
    ∃ env, parse_email_message taggedDecode msgMulti = .ok env ∧
      env.content = taggedDecode "latin-1" [72, 105] := by
  obtain ⟨env, henv, hmulti, hleaf⟩ :=
    extract_content_spec taggedDecode msgMulti (by decide)
  refine ⟨env, henv, ?_⟩
  exact (hmulti "alternative"
      [.leaf "text/html" none [60], .leaf "text/plain" (some "latin-1") [72, 105]]
      rfl).1
    [msgMulti.body, .leaf "text/html" none [60]]
    "text/plain" (some "latin-1") [72, 105] []
    (by simp [msgMulti, Part.walk, Part.walkAll]) (by decide) rfl

/-- C1 counterexample: for a message carrying a Bcc header, the run
does issue the token-acquisition call (authentication is sequenced
before parsing in `main`), contradicting "no network call is issued". -/
theorem bcc_auth_called_counterexample :
    getAll msgWithBcc.headers "Bcc" ≠ [] ∧
    Event.authCall ∈ (main taggedDecode okWorld "s@x.com" msgWithBcc
      { subject := "no subject", recipients := [] }).1 := by
  constructor
  · decide
  · decide

/-- C1 (amended): for every raw message carrying a Bcc header,
processing fails fatally and the Delivery Client's HTTP call is never
issued; the Authenticator's token acquisition, however, is always
performed, because `main` acquires the token before parsing. -/
theorem bcc_message_never_delivers (decode : Decoder) (w : World)
    (sender : String) (msg : EmailMessage) (options : Options)
    (hbcc : getAll msg.headers "Bcc" ≠ []) :
    Event.sendCall ∉ (main decode w sender msg options).1 ∧
    Event.authCall ∈ (main decode w sender msg options).1 ∧
    (main decode w sender msg options).2 ≠ Outcome.delivered ∧
    (w.authOk = true → (main decode w sender msg options).2 = Outcome.parseFailure) := by
  unfold main
  cases hA : w.authOk
  · simp
  · rw [parsed_error_of_bcc decode msg hbcc]
    simp

/-- C1 witness: the amended theorem at the concrete Bcc message. -/
theorem bcc_message_never_delivers_witness :
    Event.sendCall ∉ (main taggedDecode okWorld "s@x.com" msgWithBcc
      { subject := "no subject", recipients := [] }).1 ∧
    Event.authCall ∈ (main taggedDecode okWorld "s@x.com" msgWithBcc
      { subject := "no subject", recipients := [] }).1 ∧
    (main taggedDecode okWorld "s@x.com" msgWithBcc
      { subject := "no subject", recipients := [] }).2 ≠ Outcome.delivered ∧
    (okWorld.authOk = true → (main taggedDecode okWorld "s@x.com" msgWithBcc
      { subject := "no subject", recipients := [] }).2 = Outcome.parseFailure) :=
  bcc_message_never_delivers taggedDecode okWorld "s@x.com" msgWithBcc
    { subject := "no subject", recipients := [] } (by decide)

/-- C2 counterexample: with no recipients anywhere, the run still
issues the token-acquisition call before exiting, contradicting
"terminates before authentication and the Authenticator is not
invoked". -/
theorem no_recipients_auth_called_counterexample :
    main taggedDecode okWorld "s@x.com" msgNoRecip
      { subject := "no subject", recipients := [] } =
      ([Event.authCall], Outcome.noRecipients) ∧
    Event.authCall ∈ (main taggedDecode okWorld "s@x.com" msgNoRecip
      { subject := "no subject", recipients := [] }).1 := by
  constructor
  · rfl
  · decide

/-- C2 (amended): when the merged recipient list is empty the program
terminates with a non-zero exit status before delivery and the Delivery
Client is never invoked; the Authenticator, however, is invoked, since
token acquisition precedes the recipients check in `main`. -/
theorem empty_recipients_never_delivers (decode : Decoder) (w : World)
    (sender : String) (msg : EmailMessage) (options : Options)
    (hbcc : getAll msg.headers "Bcc" = [])
    (hto : getAll msg.headers "To" = [])
    (hcli : options.recipients = [])
    (hauth : w.authOk = true) :
    main decode w sender msg options = ([Event.authCall], Outcome.noRecipients) ∧
    exitCode (main decode w sender msg options).2 ≠ 0 ∧
    Event.sendCall ∉ (main decode w sender msg options).1 ∧
    Event.authCall ∈ (main decode w sender msg options).1 := by
  have hmain : main decode w sender msg options =
      ([Event.authCall], Outcome.noRecipients) := by
    unfold main
    rw [hauth]
    rw [parsed_bcc_of_no_bcc decode msg hbcc]
    simp [merge_to_eq_append, hto, hcli, fmt_recipients]
  refine ⟨hmain, ?_, ?_, ?_⟩ <;> rw [hmain] <;> decide

/-- C2 witness: the amended theorem at the concrete recipient-free
message. -/
theorem empty_recipients_never_delivers_witness :
    main taggedDecode okWorld "s@x.com" msgNoRecip
      { subject := "no subject", recipients := [] } =
      ([Event.authCall], Outcome.noRecipients) ∧
    exitCode (main taggedDecode okWorld "s@x.com" msgNoRecip
      { subject := "no subject", recipients := [] }).2 ≠ 0 ∧
    Event.sendCall ∉ (main taggedDecode okWorld "s@x.com" msgNoRecip
      { subject := "no subject", recipients := [] }).1 ∧
    Event.authCall ∈ (main taggedDecode okWorld "s@x.com" msgNoRecip
      { subject := "no subject", recipients := [] }).1 :=
  empty_recipients_never_delivers taggedDecode okWorld "s@x.com" msgNoRecip
    { subject := "no subject", recipients := [] }
    (by decide) (by decide) rfl rfl

/-- C5 counterexample: a message addressed only via Cc parses to an
envelope whose combined to/cc list is non-empty, yet the Orchestrator
exits with the no-recipients error (the check inspects only the merged
to-list), contradicting "proceeds past the empty-recipient-list
check". -/
theorem cc_only_exits_counterexample :
    (∃ env, parse_email_message taggedDecode msgCcOnly = .ok env ∧
      env.to ++ env.cc ≠ []) ∧
    (main taggedDecode okWorld "s@x.com" msgCcOnly
      { subject := "no subject", recipients := [] }).2 = Outcome.noRecipients := by
  refine ⟨⟨_, parsed_bcc_of_no_bcc taggedDecode msgCcOnly (by decide), by decide⟩, by decide⟩

/-- C5 (amended): for a Bcc-free message with at least one To or Cc
header, parsing yields an envelope whose combined to/cc recipients are
non-empty; but the Orchestrator proceeds past the empty-recipient-list
check exactly when the To headers or the CLI recipients are non-empty
— the check inspects only the merged to-list, so a Cc-only message
without CLI recipients exits with the no-recipients error. -/
theorem to_cc_nonempty_and_recipients_check (decode : Decoder) (w : World)
    (sender : String) (msg : EmailMessage) (options : Options)
    (hbcc : getAll msg.headers "Bcc" = [])
    (hne : getAll msg.headers "To" ++ getAll msg.headers "Cc" ≠ [])
    (hauth : w.authOk = true) :
    (∃ env, parse_email_message decode msg = .ok env ∧ env.to ++ env.cc ≠ []) ∧
    ((main decode w sender msg options).2 ≠ Outcome.noRecipients ↔
      (getAll msg.headers "To" ≠ [] ∨ options.recipients ≠ [])) := by
  constructor
  · refine ⟨_, parsed_bcc_of_no_bcc decode msg hbcc, ?_⟩
    show fmt_recipients (getAll msg.headers "To") ++
      fmt_recipients (getAll msg.headers "Cc") ≠ []
    intro hnil
    rcases List.append_eq_nil.mp hnil with ⟨h1, h2⟩
    exact hne (by rw [fmt_recipients_eq_nil.mp h1, fmt_recipients_eq_nil.mp h2]; rfl)
  · unfold main
    rw [hauth]
    rw [parsed_bcc_of_no_bcc decode msg hbcc]
    dsimp only
    rw [merge_to_eq_append]
    by_cases hcase : fmt_recipients (getAll msg.headers "To") ++
        fmt_recipients options.recipients = []
    · rw [if_pos hcase]
      rcases List.append_eq_nil.mp hcase with ⟨h1, h2⟩
      simp [fmt_recipients_eq_nil.mp h1, fmt_recipients_eq_nil.mp h2]
    · rw [if_neg hcase]
      have hrhs : getAll msg.headers "To" ≠ [] ∨ options.recipients ≠ [] := by
        by_contra hcon
        push_neg at hcon
        exact hcase (by rw [hcon.1, hcon.2]; rfl)
      cases hsend : send_mail sender
          { «to» := fmt_recipients (getAll msg.headers "To") ++
              fmt_recipients options.recipients
            cc := fmt_recipients (getAll msg.headers "Cc")
            bcc := []
            subject := merge_subject (getFirst msg.headers "Subject" "") options.subject
            content_type := "text/plain"
            content := extract_content decode msg.body } w.response <;>
        simp [hsend, hrhs]

/-- C5 witness: the amended theorem at the concrete Cc-only message
with no CLI recipients (the check is then not passed). -/
theorem to_cc_nonempty_and_recipients_check_witness :
    (∃ env, parse_email_message taggedDecode msgCcOnly = .ok env ∧
      env.to ++ env.cc ≠ []) ∧
    ((main taggedDecode okWorld "s@x.com" msgCcOnly
      { subject := "no subject", recipients := [] }).2 ≠ Outcome.noRecipients ↔
      (getAll msgCcOnly.headers "To" ≠ [] ∨
        ({ subject := "no subject", recipients := [] } : Options).recipients ≠ [])) :=
  to_cc_nonempty_and_recipients_check taggedDecode okWorld "s@x.com" msgCcOnly
    { subject := "no subject", recipients := [] }
    (by decide) (by decide) rfl

end MsgMta
